import Mathlib

/-!
Verification development for the batch video transcoder in this repository.

The repository contains three variants of the converter program:
* variant 1 (`_v1`): the sequential converter (first program in `main.go`),
* variant 2 (`_v2`): the concurrent converter with a `ProcessManager`
  (second program in `main.go`),
* variant 3: the concurrent converter of the remaining source file
  (its per-file logic matches variant 2 where a claim cites it, except that
  it writes to a temporary path and has no marker; it is not modelled
  separately).

File-system paths are modelled as lists of characters (`Path`), so that the
Go `strings` and `path/filepath` operations used by the program can be given
executable definitions.  The disk is modelled as an association list from
paths to file sizes (`FS`).  External effects of one per-file task are
recorded as a list of `FileAction`s in the order the code performs them.
-/

namespace VC

/-- Paths are lists of characters. -/
abbrev Path := List Char

/-- Helper turning a string literal into a `Path`. -/
def pstr (s : String) : Path := s.data

/-- Go `strings.ToLower` (the program only deals with ASCII names). -/
def goToLower (p : Path) : Path := p.map Char.toLower

/-- Go `strings.HasSuffix p suf`: `true` iff `suf` is a suffix of `p`. -/
def goHasSuffix (p suf : Path) : Bool := suf == p.drop (p.length - suf.length)

/-- Go `strings.TrimSuffix`: drop `suf` from the end of `p` when present. -/
def goTrimSuffix (p suf : Path) : Path :=
  if goHasSuffix p suf then p.take (p.length - suf.length) else p

/-- Helper for `goExt`: walk the reversed path; `acc` holds the characters
already passed, in forward order.  Stops at a path separator. -/
def goExtAux : List Char → Path → Path
  | _, [] => []
  | acc, c :: cs =>
    if c = '/' then []
    else if c = '.' then c :: acc
    else goExtAux (c :: acc) cs

/-- Go `filepath.Ext`: the suffix of the last element starting at its final
dot, empty when there is no dot. -/
def goExt (p : Path) : Path := goExtAux [] p.reverse

/-- Go `filepath.Join a b` for the clean relative paths this program builds. -/
def goJoin (a b : Path) : Path := a ++ ('/' :: b)

/-- `sourceExtensions = ".mov"` split at commas (variant 1). -/
def sourceExtensions_v1 : List Path := [pstr (".mov")]

/-- `SOURCE_EXTENSIONS = ".MOV,.mov"` split at commas (variant 2). -/
def SOURCE_EXTENSIONS_v2 : List Path := [pstr (".MOV"), pstr (".mov")]

/-- `OUTPUT_EXTENSION = ".mkv"` (same in every variant). -/
def OUTPUT_EXTENSION : Path := pstr (".mkv")

/-- `CONVERTED_DIR = "converted"` (same in every variant). -/
def CONVERTED_DIR : Path := pstr ("converted")

/-- The suffix of incomplete-output marker files. -/
def incompleteSuffix : Path := pstr (".incomplete")

/-- `TARGET_CPU_PERCENT = 50` (variant 2). -/
def TARGET_CPU_PERCENT : Nat := 50

/-- `MAX_WORKERS = 2` (variant 2). -/
def MAX_WORKERS : Nat := 2

/-- `calculateThreadsPerWorker` of variant 2 with the two program constants
`TARGET_CPU_PERCENT` and `MAX_WORKERS` made explicit parameters; the body is
the source computation unchanged. -/
def calculateThreadsPerWorkerGen (targetPercent maxWorkers numCPU : Nat) : Nat :=
  let totalThreads := (targetPercent * numCPU) / 100
  let totalThreads := if totalThreads < 1 then 1 else totalThreads
  let threadsPerWorker := totalThreads / maxWorkers
  if threadsPerWorker < 1 then 1 else threadsPerWorker

/-- `calculateThreadsPerWorker` exactly as in the source, using the program
constants. -/
def calculateThreadsPerWorker (numCPU : Nat) : Nat :=
  calculateThreadsPerWorkerGen TARGET_CPU_PERCENT MAX_WORKERS numCPU

/-- `VideoFile` as in the source: full path, containing directory, base name. -/
structure VideoFile where
  sourcePath : Path
  sourceDir : Path
  fileName : Path
deriving DecidableEq, Repr

/-- The disk: an association list from paths to file sizes. -/
abbrev FS := List (Path × Nat)

/-- `os.Stat`: size of the file at `p`, `none` when it does not exist. -/
def fsStat : FS → Path → Option Nat
  | [], _ => none
  | (q, n) :: rest, p => if q = p then some n else fsStat rest p

/-- `os.Remove`: delete the file at `p` (a no-op when absent). -/
def fsRemove : FS → Path → FS
  | [], _ => []
  | (q, n) :: rest, p => if q = p then fsRemove rest p else (q, n) :: fsRemove rest p

/-- `os.WriteFile`: create or overwrite the file at `p` with size `n`. -/
def fsWrite (fs : FS) (p : Path) (n : Nat) : FS := (p, n) :: fsRemove fs p

/-- `convertedDir := filepath.Join(file.sourceDir, CONVERTED_DIR)`. -/
def convertedDirOf (f : VideoFile) : Path := goJoin f.sourceDir CONVERTED_DIR

/-- `outputFileName := strings.TrimSuffix(fileName, filepath.Ext(fileName)) + OUTPUT_EXTENSION`. -/
def outputFileNameOf (f : VideoFile) : Path :=
  goTrimSuffix f.fileName (goExt f.fileName) ++ OUTPUT_EXTENSION

/-- `outputPath := filepath.Join(convertedDir, outputFileName)`. -/
def outputPathOf (f : VideoFile) : Path := goJoin (convertedDirOf f) (outputFileNameOf f)

/-- `incompleteMarker := outputPath + ".incomplete"`. -/
def incompleteMarkerOf (f : VideoFile) : Path := outputPathOf f ++ incompleteSuffix

/-- External effects of one per-file task, in program order. -/
inductive FileAction where
  | statSource | mkdirConverted | statOutput | writeMarker
  | startProc | registerProc | signalInterrupt | killProc
  | removeOutput | removeMarker | unregisterProc | chtimes
deriving DecidableEq, Repr

/-- Environment of one variant-1 task: outcome of each fallible external step
and of the cancellation context.  `ffmpegOut` is the file (with its size)
that the external process has left at the output path by the time it stops;
`none` means no file was created. -/
structure EnvV1 where
  canceledAtEntry : Bool
  statSourceOk : Bool
  mkdirOk : Bool
  markerWriteOk : Bool
  startOk : Bool
  canceledDuring : Bool
  exitsWithinGrace : Bool
  waitErr : Bool
  ffmpegOut : Option Nat
deriving DecidableEq, Repr

/-- `processFile` of variant 1 (sequential program of `main.go`): returns the
Go result code (0 success, 1 skipped, 2 error, 3 canceled), the disk after
the task, and the actions performed in order.  Mirrors the source branch by
branch; note that the zero-exit path removes the marker and keeps the
outcome 0 with no check of the output file. -/
def processFile_v1 (e : EnvV1) (fs : FS) (f : VideoFile) : Nat × FS × List FileAction :=
  if e.canceledAtEntry then (3, fs, [])
  else if !e.statSourceOk then (2, fs, [FileAction.statSource])
  else if !e.mkdirOk then (2, fs, [FileAction.statSource, FileAction.mkdirConverted])
  else
    let out := outputPathOf f
    let marker := incompleteMarkerOf f
    let tr0 := [FileAction.statSource, FileAction.mkdirConverted, FileAction.statOutput]
    if (fsStat fs out).isSome then (1, fs, tr0)
    else if !e.markerWriteOk then (2, fs, tr0 ++ [FileAction.writeMarker])
    else
      let fs1 := fsWrite fs marker 1
      let tr1 := tr0 ++ [FileAction.writeMarker, FileAction.startProc]
      if !e.startOk then
        (2, fsRemove (fsRemove fs1 out) marker,
          tr1 ++ [FileAction.removeOutput, FileAction.removeMarker])
      else
        let tr2 := tr1 ++ [FileAction.registerProc]
        let fs2 := match e.ffmpegOut with
          | some n => fsWrite fs1 out n
          | none => fs1
        if e.canceledDuring then
          (3, fsRemove (fsRemove fs2 out) marker,
            tr2 ++ [FileAction.signalInterrupt] ++
              (if e.exitsWithinGrace then [] else [FileAction.killProc]) ++
              [FileAction.removeOutput, FileAction.removeMarker, FileAction.unregisterProc])
        else if e.waitErr then
          (2, fsRemove (fsRemove fs2 out) marker,
            tr2 ++ [FileAction.unregisterProc, FileAction.removeOutput, FileAction.removeMarker])
        else
          (0, fsRemove fs2 marker,
            tr2 ++ [FileAction.unregisterProc, FileAction.removeMarker, FileAction.chtimes])

/-- Environment of one variant-2 task.  `ctxCanceledAtErr` models
`pm.ctx.Err() != nil` as observed inside the wait-error branch. -/
structure EnvV2 where
  canceledAtEntry : Bool
  mkdirOk : Bool
  markerWriteOk : Bool
  startOk : Bool
  canceledDuring : Bool
  waitErr : Bool
  ctxCanceledAtErr : Bool
  ffmpegOut : Option Nat
deriving DecidableEq, Repr

/-- `processFile` of variant 2 (concurrent program of `main.go`).  On
cancellation during the run the task kills the subprocess at once and cleans
up; on a zero exit it checks that the output exists with non-zero size before
removing the marker. -/
def processFile_v2 (e : EnvV2) (fs : FS) (f : VideoFile) : Nat × FS × List FileAction :=
  if e.canceledAtEntry then (3, fs, [])
  else if !e.mkdirOk then (2, fs, [FileAction.mkdirConverted])
  else
    let out := outputPathOf f
    let marker := incompleteMarkerOf f
    let tr0 := [FileAction.mkdirConverted, FileAction.statOutput]
    if (fsStat fs out).isSome then (1, fs, tr0)
    else if !e.markerWriteOk then (2, fs, tr0 ++ [FileAction.writeMarker])
    else
      let fs1 := fsWrite fs marker 1
      let tr1 := tr0 ++ [FileAction.writeMarker, FileAction.startProc]
      if !e.startOk then
        (2, fsRemove (fsRemove fs1 out) marker,
          tr1 ++ [FileAction.removeOutput, FileAction.removeMarker])
      else
        let tr2 := tr1 ++ [FileAction.registerProc]
        let fs2 := match e.ffmpegOut with
          | some n => fsWrite fs1 out n
          | none => fs1
        if e.canceledDuring then
          (3, fsRemove (fsRemove fs2 out) marker,
            tr2 ++ [FileAction.killProc, FileAction.unregisterProc,
              FileAction.removeOutput, FileAction.removeMarker])
        else
          let tr3 := tr2 ++ [FileAction.unregisterProc]
          if e.waitErr then
            if e.ctxCanceledAtErr then
              (3, fsRemove (fsRemove fs2 out) marker,
                tr3 ++ [FileAction.removeOutput, FileAction.removeMarker])
            else
              (2, fsRemove (fsRemove fs2 out) marker,
                tr3 ++ [FileAction.removeOutput, FileAction.removeMarker])
          else
            match fsStat fs2 out with
            | some n =>
              if n = 0 then
                (2, fsRemove (fsRemove fs2 out) marker,
                  tr3 ++ [FileAction.statOutput, FileAction.removeOutput, FileAction.removeMarker])
              else
                (0, fsRemove fs2 marker,
                  tr3 ++ [FileAction.statOutput, FileAction.removeMarker])
            | none =>
              (2, fsRemove (fsRemove fs2 out) marker,
                tr3 ++ [FileAction.statOutput, FileAction.removeOutput, FileAction.removeMarker])

/-- The four outcome counters of `processFiles`. -/
structure Counts where
  success : Nat
  skip : Nat
  error : Nat
  canceled : Nat
deriving DecidableEq, Repr

/-- The `switch result` statement updating the counters.  The Go switch has
no default branch, so a result outside 0–3 would change nothing. -/
def bump (c : Counts) (r : Nat) : Counts :=
  match r with
  | 0 => { c with success := c.success + 1 }
  | 1 => { c with skip := c.skip + 1 }
  | 2 => { c with error := c.error + 1 }
  | 3 => { c with canceled := c.canceled + 1 }
  | _ => c

/-- Sum of the four counters printed in the final summary. -/
def sumCounts (c : Counts) : Nat := c.success + c.skip + c.error + c.canceled

/-- `processFiles` of variant 1 (sequential).  `canceled` says whether the
cancellation context was flipped (modelled as fixed for the whole run: the
interrupt arrived before the run or not at all); `total` is `len(files)`.
When `pm.ctx.Err() != nil` the loop sets
`canceledCount = len(files) - success - skip - error` and leaves the loop
with a genuine `break`. -/
def processFiles_v1_aux (total : Nat) (canceled : Bool) (env : VideoFile → EnvV1) :
    List VideoFile → FS → Counts → Counts × FS
  | [], fs, c => (c, fs)
  | f :: rest, fs, c =>
    if canceled then
      ({ c with canceled := total - c.success - c.skip - c.error }, fs)
    else
      let r := processFile_v1 (env f) fs f
      processFiles_v1_aux total canceled env rest r.2.1 (bump c r.1)

/-- `processFiles` of variant 1 starting from zeroed counters. -/
def processFiles_v1 (canceled : Bool) (env : VideoFile → EnvV1)
    (files : List VideoFile) (fs : FS) : Counts × FS :=
  processFiles_v1_aux files.length canceled env files fs ⟨0, 0, 0, 0⟩

/-- `processFiles` of variant 2 (worker pool), under the schedule in which
each spawned task runs to completion before the next loop iteration — a
legal interleaving of the pool, used to reason about the counters and the
disk.  The `break` inside the `select` leaves only the `select`, not the
loop, so after the buggy reset of `canceledCount` the iteration still spawns
its task. -/
def processFiles_v2_aux (total : Nat) (canceled : Bool) (env : VideoFile → EnvV2) :
    List VideoFile → FS → Counts → Counts × FS
  | [], fs, c => (c, fs)
  | f :: rest, fs, c =>
    let c1 := if canceled then
      { c with canceled := total - c.success - c.skip - c.error } else c
    let r := processFile_v2 (env f) fs f
    processFiles_v2_aux total canceled env rest r.2.1 (bump c1 r.1)

/-- `processFiles` of variant 2 starting from zeroed counters. -/
def processFiles_v2 (canceled : Bool) (env : VideoFile → EnvV2)
    (files : List VideoFile) (fs : FS) : Counts × FS :=
  processFiles_v2_aux files.length canceled env files fs ⟨0, 0, 0, 0⟩

/-- A directory tree as visited by `filepath.Walk`.  `ioErr` on a node means
the walk callback receives a non-nil error for it (an unreadable entry); an
erroring directory's children are not visited. -/
inductive FsTree where
  | file (name : Path) (ioErr : Bool)
  | dir (name : Path) (ioErr : Bool) (children : List FsTree)

/-- Variant-1 extension test:
`strings.ToLower(filepath.Ext(path))` equals a lowered allowed extension. -/
def matchExt_v1 (p : Path) : Bool :=
  sourceExtensions_v1.any (fun ext => goToLower (goExt p) == goToLower ext)

/-- Variant-2 extension test:
`strings.HasSuffix(strings.ToLower(path), strings.ToLower(ext))`. -/
def matchExt_v2 (p : Path) : Bool :=
  SOURCE_EXTENSIONS_v2.any (fun ext => goHasSuffix (goToLower p) (goToLower ext))

mutual

/-- `findVideoFiles` of variant 1, one tree node: a callback error aborts the
whole walk (`return err`); directories are descended into unconditionally —
there is no pruning of the converted directory in this variant. -/
def walkTree_v1 (pre : Path) : FsTree → Except Unit (List VideoFile)
  | .file name ioErr =>
    if ioErr then .error ()
    else
      let path := goJoin pre name
      if matchExt_v1 path then .ok [⟨path, pre, name⟩] else .ok []
  | .dir name ioErr children =>
    if ioErr then .error ()
    else walkList_v1 (goJoin pre name) children

/-- `findVideoFiles` of variant 1 over a list of sibling nodes. -/
def walkList_v1 (pre : Path) : List FsTree → Except Unit (List VideoFile)
  | [] => .ok []
  | t :: ts =>
    match walkTree_v1 pre t with
    | .error e => .error e
    | .ok fs1 =>
      match walkList_v1 pre ts with
      | .error e => .error e
      | .ok fs2 => .ok (fs1 ++ fs2)

end

mutual

/-- `findVideoFiles` of variant 2, one tree node: a callback error is logged
and the entry skipped (`return nil`); a directory named `CONVERTED_DIR`
returns `filepath.SkipDir` and is not descended into. -/
def walkTree_v2 (pre : Path) : FsTree → List VideoFile
  | .file name ioErr =>
    if ioErr then []
    else
      let path := goJoin pre name
      if matchExt_v2 path then [⟨path, pre, name⟩] else []
  | .dir name ioErr children =>
    if ioErr then []
    else if name = CONVERTED_DIR then []
    else walkList_v2 (goJoin pre name) children

/-- `findVideoFiles` of variant 2 over a list of sibling nodes. -/
def walkList_v2 (pre : Path) : List FsTree → List VideoFile
  | [] => []
  | t :: ts => walkTree_v2 pre t ++ walkList_v2 pre ts

end

/-- State of the variant-2 worker pool, counting tasks by phase:
`waiting` tasks have not been picked by the loop; `pre` tasks hold a
semaphore slot but have not started their external process (they may end
without one: skip, pre-checks, failed spawn); `run` tasks have a live
external process; `post` tasks saw their process stop but still hold their
slot. -/
structure PoolState where
  waiting : Nat
  pre : Nat
  run : Nat
  post : Nat
deriving DecidableEq, Repr

/-- Semaphore slots currently held: every picked, unreleased task holds one. -/
def slotsHeld (s : PoolState) : Nat := s.pre + s.run + s.post

/-- One scheduler event of variant 2's `processFiles`/`processFile`:
* `acquire`: the loop body runs the semaphore send, which blocks unless
  fewer than `MAX_WORKERS` slots are held, then spawns the goroutine;
* `start`: a task's `cmd.Start()` succeeds and the process is registered;
* `finish o`: the external process of a task stops and the task heads for
  result `o`;
* `releasePre`: a task that never started a process returns; its deferred
  semaphore receive frees the slot;
* `releasePost o`: a task whose process stopped returns result `o`; the
  deferred semaphore receive frees the slot whatever `o` is (also on panic). -/
inductive PoolStep : PoolState → PoolState → Prop where
  | acquire (s : PoolState) : 0 < s.waiting → slotsHeld s < MAX_WORKERS →
      PoolStep s { s with waiting := s.waiting - 1, pre := s.pre + 1 }
  | start (s : PoolState) : 0 < s.pre →
      PoolStep s { s with pre := s.pre - 1, run := s.run + 1 }
  | finish (s : PoolState) (o : Nat) : 0 < s.run →
      PoolStep s { s with run := s.run - 1, post := s.post + 1 }
  | releasePre (s : PoolState) : 0 < s.pre →
      PoolStep s { s with pre := s.pre - 1 }
  | releasePost (s : PoolState) (o : Nat) : 0 < s.post →
      PoolStep s { s with post := s.post - 1 }

/-- Pool executions: reflexive-transitive closure of scheduler events. -/
def PoolReach : PoolState → PoolState → Prop := Relation.ReflTransGen PoolStep

/-- The initial pool state for `n` enumerated files. -/
def poolInit (n : Nat) : PoolState := ⟨n, 0, 0, 0⟩

/-- `cleanupIncompleteFiles` of variant 2, the sweep run from `Shutdown`:
visit each path of the walk snapshot; at a marker, remove the associated
video file when it exists, then the marker itself. -/
def cleanupSweep : List Path → FS → FS
  | [], fs => fs
  | p :: rest, fs =>
    if goHasSuffix p incompleteSuffix then
      let videoPath := goTrimSuffix p incompleteSuffix
      let fs1 := if (fsStat fs videoPath).isSome then fsRemove fs videoPath else fs
      cleanupSweep rest (fsRemove fs1 p)
    else cleanupSweep rest fs

/-- `cleanupIncompleteFiles` of variant 2 applied to the whole disk. -/
def cleanupIncompleteFiles_v2 (fs : FS) : FS := cleanupSweep (fs.map Prod.fst) fs

deriving instance DecidableEq for Except

/-- Concrete file `d/clip.MOV` (upper-case extension). -/
def fileClipMOV : VideoFile := ⟨pstr ("d/clip.MOV"), pstr ("d"), pstr ("clip.MOV")⟩

/-- Concrete file `d/clip.mov` (lower-case extension). -/
def fileClipmov : VideoFile := ⟨pstr ("d/clip.mov"), pstr ("d"), pstr ("clip.mov")⟩

/-- Concrete file `root/clip.mov` used by the crash-recovery claims. -/
def fileClipRoot : VideoFile := ⟨pstr ("root/clip.mov"), pstr ("root"), pstr ("clip.mov")⟩

/-- A disk left by a crash: a stale partial output and its marker. -/
def fsLeftover : FS := [(outputPathOf fileClipRoot, 7), (incompleteMarkerOf fileClipRoot, 1)]

/-- Environment of an undisturbed, succeeding task (process exits zero and
leaves a 5-byte output). -/
def envRunOk : EnvV2 := ⟨false, true, true, true, false, false, false, some 5⟩

/-- Environment of a failing task: the process exits non-zero and leaves no
output. -/
def envRunFail : EnvV2 := ⟨false, true, true, true, false, true, false, none⟩

/-- Environment of a variant-2 task canceled while its process runs; the
process has produced a 3-byte partial output. -/
def envCancelDuring : EnvV2 := ⟨false, true, true, true, true, false, false, some 3⟩

/-- Environment of a variant-2 task whose context is already canceled when
the task begins. -/
def envCanceledEntry : EnvV2 := ⟨true, true, true, true, false, false, false, none⟩

/-- Environment of a variant-1 task whose process exits zero without having
created any output file. -/
def envV1ZeroExitNoOutput : EnvV1 := ⟨false, true, true, true, true, false, true, false, none⟩

/-- Directory `d` with an unreadable `bad.mov` and a readable `good.mov`. -/
def treeWalkErr : FsTree :=
  .dir (pstr ("d")) false [.file (pstr ("bad.mov")) true, .file (pstr ("good.mov")) false]

/-- Directory `root` whose `converted` subdirectory holds `clip.mov`. -/
def treeConverted : FsTree :=
  .dir (pstr ("root")) false [.dir (pstr ("converted")) false [.file (pstr ("clip.mov")) false]]

/-- Directory `d` holding only a text file. -/
def treeNoMatch : FsTree := .dir (pstr ("d")) false [.file (pstr ("notes.txt")) false]

theorem fsStat_fsWrite_self (fs : FS) (p : Path) (n : Nat) :
    fsStat (fsWrite fs p n) p = some n := by
  simp [fsWrite, fsStat]

theorem fsStat_fsRemove (fs : FS) (p q : Path) :
    fsStat (fsRemove fs p) q = if p = q then none else fsStat fs q := by
  induction fs with
  | nil => simp [fsRemove, fsStat]
  | cons e rest ih =>
    obtain ⟨r, n⟩ := e
    simp only [fsRemove, fsStat]
    by_cases hrp : r = p <;> by_cases hrq : r = q
    · simp [hrp, hrq, fsStat, ih]; simp_all
    · simp [hrp, hrq, fsStat, ih]; simp_all
    · have hpq : ¬ p = q := fun h => hrp (h ▸ hrq)
      have hqp : ¬ q = p := hrq ▸ hrp
      simp [hrp, hrq, fsStat, hpq, hqp]
    · simp [hrp, hrq, fsStat, ih]

theorem fsStat_fsRemove_self (fs : FS) (p : Path) :
    fsStat (fsRemove fs p) p = none := by
  simp [fsStat_fsRemove]

theorem fsStat_fsRemove_of_ne (fs : FS) (p q : Path) (h : p ≠ q) :
    fsStat (fsRemove fs p) q = fsStat fs q := by
  simp [fsStat_fsRemove, h]

theorem fsStat_fsWrite_of_ne (fs : FS) (p q : Path) (n : Nat) (h : p ≠ q) :
    fsStat (fsWrite fs p n) q = fsStat fs q := by
  simp [fsWrite, fsStat, h, fsStat_fsRemove_of_ne _ _ _ h]

theorem outputPathOf_getLast (f : VideoFile) :
    (outputPathOf f).getLast? = some 'v' := by
  have hne : OUTPUT_EXTENSION ≠ [] := by decide
  rw [outputPathOf, goJoin, outputFileNameOf,
    List.getLast?_append_of_ne_nil _ (by simp),
    show ('/' :: (goTrimSuffix f.fileName (goExt f.fileName) ++ OUTPUT_EXTENSION)) =
      ('/' :: goTrimSuffix f.fileName (goExt f.fileName)) ++ OUTPUT_EXTENSION from rfl,
    List.getLast?_append_of_ne_nil _ hne]
  decide

theorem incompleteMarkerOf_getLast (f : VideoFile) :
    (incompleteMarkerOf f).getLast? = some 'e' := by
  have hne : incompleteSuffix ≠ [] := by decide
  rw [incompleteMarkerOf, List.getLast?_append_of_ne_nil _ hne]
  decide

/-- A marker path is never an output path: they end in different characters. -/
theorem incompleteMarkerOf_ne_outputPathOf (f g : VideoFile) :
    incompleteMarkerOf f ≠ outputPathOf g := by
  intro h
  have h2 := congrArg List.getLast? h
  rw [incompleteMarkerOf_getLast, outputPathOf_getLast] at h2
  exact absurd h2 (by decide)

/-- C4: the thread-budget computation is the claimed pure function
`max 1 ((targetPercent * cpuCount / 100) / workerCeiling)` with both the
intermediate total and the result floored at 1, and it yields `2` at
`(cpuCount = 8, 50, 2)` and `1` at `(cpuCount = 1, 50, 2)`. -/
theorem c4_thread_budget :
    (∀ (cpuCount targetPercent workerCeiling : Nat),
        1 ≤ cpuCount → 1 ≤ workerCeiling →
        calculateThreadsPerWorkerGen targetPercent workerCeiling cpuCount =
          max 1 ((targetPercent * cpuCount / 100) / workerCeiling)) ∧
    calculateThreadsPerWorker 8 = 2 ∧ calculateThreadsPerWorker 1 = 1 := by
  refine ⟨?_, by decide, by decide⟩
  intro cpuCount targetPercent workerCeiling _hc hw
  unfold calculateThreadsPerWorkerGen
  rcases Nat.eq_zero_or_pos (targetPercent * cpuCount / 100) with h0 | hpos
  · rw [h0]
    have h1w : 1 / workerCeiling ≤ 1 := Nat.div_le_self 1 workerCeiling
    simp only [Nat.zero_div]
    split
    · split
      · omega
      · omega
    · split
      · omega
      · omega
  · have hno : ¬ targetPercent * cpuCount / 100 < 1 := by omega
    simp only [hno, if_false]
    split
    · omega
    · omega

/-- C4 witness: the general statement instantiated at `(8, 50, 2)`. -/
theorem c4_thread_budget_witness :
    calculateThreadsPerWorkerGen 50 2 8 = max 1 ((50 * 8 / 100) / 2) :=
  c4_thread_budget.1 8 50 2 (by decide) (by decide)

theorem slotsHeld_invariant {a b : PoolState} (h : Relation.ReflTransGen PoolStep a b)
    (ha : slotsHeld a ≤ MAX_WORKERS) : slotsHeld b ≤ MAX_WORKERS := by
  induction h with
  | refl => exact ha
  | tail _ step ih =>
    cases step with
    | acquire hw hs => simp only [slotsHeld] at *; omega
    | start hp => simp only [slotsHeld] at *; omega
    | finish _o hr => simp only [slotsHeld] at *; omega
    | releasePre hp => simp only [slotsHeld] at *; omega
    | releasePost _o hp => simp only [slotsHeld] at *; omega

/-- C9: in every execution of the worker pool, the number of live external
processes never exceeds `MAX_WORKERS`, however many files were enumerated;
and a task whose process has stopped can always release its slot, whatever
its outcome. -/
theorem c9_concurrency_ceiling :
    (∀ (n : Nat) (s : PoolState), PoolReach (poolInit n) s → s.run ≤ MAX_WORKERS) ∧
    (∀ (s : PoolState) (o : Nat), 0 < s.post →
      PoolStep s { s with post := s.post - 1 }) := by
  constructor
  · intro n s h
    have hinv := slotsHeld_invariant h (by simp [poolInit, slotsHeld])
    simp only [slotsHeld] at hinv
    omega
  · exact fun s o h => PoolStep.releasePost s o h

/-- C9 witness: the ceiling instantiated in the initial state for three
files, and a slot release for a finished task with outcome 2. -/
theorem c9_concurrency_ceiling_witness :
    (poolInit 3).run ≤ MAX_WORKERS ∧
    PoolStep ⟨0, 0, 0, 1⟩ { (⟨0, 0, 0, 1⟩ : PoolState) with post := 1 - 1 } :=
  ⟨c9_concurrency_ceiling.1 3 (poolInit 3) Relation.ReflTransGen.refl,
   c9_concurrency_ceiling.2 ⟨0, 0, 0, 1⟩ 2 (by decide)⟩

/-- C10: the output-path computation is not injective over enumerated files:
`d/clip.MOV` and `d/clip.mov` are both selected by the extension filter of
the concurrent variant (and enumerated as distinct files), yet they share
one output path, so once one of them has produced the output the other task
reports Skipped. -/
theorem c10_output_path_collision :
    walkList_v2 (pstr ("d"))
        [.file (pstr ("clip.MOV")) false, .file (pstr ("clip.mov")) false] =
      [fileClipMOV, fileClipmov] ∧
    fileClipMOV ≠ fileClipmov ∧
    outputPathOf fileClipMOV = outputPathOf fileClipmov ∧
    (processFile_v2 envRunOk (fsWrite [] (outputPathOf fileClipMOV) 5) fileClipmov).1 = 1 := by
  refine ⟨by decide, by decide, by decide, ?_⟩
  decide

/-- C8 counterexample: variant 1 does not prune the converted directory —
`root/converted/clip.mov` is enumerated as a source by its walk, against the
claim that no file inside such a directory is ever enumerated. -/
theorem c8_counterexample_v1_descends :
    walkTree_v1 [] treeConverted =
      Except.ok [⟨pstr ("/root/converted/clip.mov"), pstr ("/root/converted"),
        pstr ("clip.mov")⟩] := by
  decide

/-- C8 (amended): in the concurrent variants any directory named exactly
`converted` is pruned entirely — whatever it contains, the walk yields
nothing from it and does not descend into it — so those walks never
enumerate a file inside such a directory; the sequential variant descends
into it and can enumerate allowed-extension files there. -/
theorem c8_converted_pruned :
    (∀ (pre : Path) (ioErr : Bool) (children : List FsTree),
      walkTree_v2 pre (.dir CONVERTED_DIR ioErr children) = []) ∧
    (∀ (pre : Path) (ioErr : Bool) (children : List FsTree) (rest : List FsTree),
      walkList_v2 pre (.dir CONVERTED_DIR ioErr children :: rest) = walkList_v2 pre rest) := by
  constructor
  · intro pre ioErr children
    cases ioErr <;> simp [walkTree_v2]
  · intro pre ioErr children rest
    cases ioErr <;> simp [walkList_v2, walkTree_v2]

/-- C7 counterexample: in variant 1 an I/O error on one entry aborts the
whole walk — with an unreadable `d/bad.mov` next to a readable `d/good.mov`
the enumeration returns an error and no files, against the claim that an
entry error never aborts the walk. -/
theorem c7_counterexample_v1_aborts :
    walkTree_v1 [] treeWalkErr = Except.error () := by
  decide

/-- C7 (amended): in the concurrent variants an I/O error on an individual
entry (file or directory) is logged and that entry skipped, the rest of the
walk proceeding unchanged, and a tree without matching files enumerates to
the empty sequence rather than an error; in the sequential variant an entry
error aborts the whole walk. -/
theorem c7_walk_error_handling :
    (∀ (pre : Path) (name : Path) (rest : List FsTree),
      walkList_v2 pre (.file name true :: rest) = walkList_v2 pre rest) ∧
    (∀ (pre : Path) (name : Path) (children rest : List FsTree),
      walkList_v2 pre (.dir name true children :: rest) = walkList_v2 pre rest) ∧
    walkTree_v2 [] treeNoMatch = [] := by
  refine ⟨?_, ?_, by decide⟩
  · intro pre name rest
    simp [walkList_v2, walkTree_v2]
  · intro pre name children rest
    simp [walkList_v2, walkTree_v2]

theorem processFile_v2_skip (e : EnvV2) (fs : FS) (f : VideoFile) (m : Nat)
    (hce : e.canceledAtEntry = false) (hmk : e.mkdirOk = true)
    (hout : fsStat fs (outputPathOf f) = some m) :
    processFile_v2 e fs f = (1, fs, [FileAction.mkdirConverted, FileAction.statOutput]) := by
  simp [processFile_v2, hce, hmk, hout]

theorem processFile_v2_success (e : EnvV2) (fs : FS) (f : VideoFile) (n : Nat)
    (hce : e.canceledAtEntry = false) (hmk : e.mkdirOk = true)
    (hout : fsStat fs (outputPathOf f) = none) (hmw : e.markerWriteOk = true)
    (hso : e.startOk = true) (hcd : e.canceledDuring = false)
    (hwe : e.waitErr = false) (hfo : e.ffmpegOut = some n) (hn : ¬ n = 0) :
    processFile_v2 e fs f =
      (0, fsRemove (fsWrite (fsWrite fs (incompleteMarkerOf f) 1) (outputPathOf f) n)
            (incompleteMarkerOf f),
       [FileAction.mkdirConverted, FileAction.statOutput, FileAction.writeMarker,
        FileAction.startProc, FileAction.registerProc, FileAction.unregisterProc,
        FileAction.statOutput, FileAction.removeMarker]) := by
  simp [processFile_v2, hce, hmk, hout, hmw, hso, hcd, hwe, hfo, hn,
    fsWrite, fsStat]

theorem processFile_v2_no_output (e : EnvV2) (fs : FS) (f : VideoFile)
    (hce : e.canceledAtEntry = false) (hmk : e.mkdirOk = true)
    (hout : fsStat fs (outputPathOf f) = none) (hmw : e.markerWriteOk = true)
    (hso : e.startOk = true) (hcd : e.canceledDuring = false)
    (hwe : e.waitErr = false) (hfo : e.ffmpegOut = none) :
    processFile_v2 e fs f =
      (2, fsRemove (fsRemove (fsWrite fs (incompleteMarkerOf f) 1) (outputPathOf f))
            (incompleteMarkerOf f),
       [FileAction.mkdirConverted, FileAction.statOutput, FileAction.writeMarker,
        FileAction.startProc, FileAction.registerProc, FileAction.unregisterProc,
        FileAction.statOutput, FileAction.removeOutput, FileAction.removeMarker]) := by
  have hne := incompleteMarkerOf_ne_outputPathOf f f
  simp [processFile_v2, hce, hmk, hout, hmw, hso, hcd, hwe, hfo,
    fsStat_fsWrite_of_ne _ _ _ _ hne]

theorem processFile_v2_empty_output (e : EnvV2) (fs : FS) (f : VideoFile)
    (hce : e.canceledAtEntry = false) (hmk : e.mkdirOk = true)
    (hout : fsStat fs (outputPathOf f) = none) (hmw : e.markerWriteOk = true)
    (hso : e.startOk = true) (hcd : e.canceledDuring = false)
    (hwe : e.waitErr = false) (hfo : e.ffmpegOut = some 0) :
    processFile_v2 e fs f =
      (2, fsRemove (fsRemove (fsWrite (fsWrite fs (incompleteMarkerOf f) 1)
              (outputPathOf f) 0) (outputPathOf f)) (incompleteMarkerOf f),
       [FileAction.mkdirConverted, FileAction.statOutput, FileAction.writeMarker,
        FileAction.startProc, FileAction.registerProc, FileAction.unregisterProc,
        FileAction.statOutput, FileAction.removeOutput, FileAction.removeMarker]) := by
  simp [processFile_v2, hce, hmk, hout, hmw, hso, hcd, hwe, hfo, fsWrite, fsStat]

/-- C3 counterexample: a variant-2 task canceled while its process runs
reports Canceled (3), but its action trace contains no cooperative
termination signal at all and does contain an unconditional kill — the
subprocess is killed immediately, without the claimed grace period. -/
theorem c3_counterexample_v2_kills_immediately :
    (processFile_v2 envCancelDuring [] fileClipMOV).1 = 3 ∧
    FileAction.signalInterrupt ∉ (processFile_v2 envCancelDuring [] fileClipMOV).2.2 ∧
    FileAction.killProc ∈ (processFile_v2 envCancelDuring [] fileClipMOV).2.2 := by
  decide

/-- C3 (amended): on cancellation before process exit, the sequential
variant signals interrupt, kills only when the process is still alive after
the grace wait, removes partial output and marker, unregisters, and reports
Canceled; the concurrent variant of `main.go` instead kills the subprocess
immediately (no per-task cooperative signal or grace wait — those exist only
in the supervisor's shutdown), unregisters, removes partial output and
marker, and reports Canceled. -/
theorem c3_cancellation_teardown :
    (∀ (e : EnvV1) (fs : FS) (f : VideoFile),
      e.canceledAtEntry = false → e.statSourceOk = true → e.mkdirOk = true →
      fsStat fs (outputPathOf f) = none → e.markerWriteOk = true →
      e.startOk = true → e.canceledDuring = true →
      (processFile_v1 e fs f).1 = 3 ∧
      fsStat (processFile_v1 e fs f).2.1 (outputPathOf f) = none ∧
      fsStat (processFile_v1 e fs f).2.1 (incompleteMarkerOf f) = none ∧
      (processFile_v1 e fs f).2.2 =
        [FileAction.statSource, FileAction.mkdirConverted, FileAction.statOutput,
         FileAction.writeMarker, FileAction.startProc, FileAction.registerProc,
         FileAction.signalInterrupt] ++
        (if e.exitsWithinGrace then [] else [FileAction.killProc]) ++
        [FileAction.removeOutput, FileAction.removeMarker, FileAction.unregisterProc]) ∧
    (∀ (e : EnvV2) (fs : FS) (f : VideoFile),
      e.canceledAtEntry = false → e.mkdirOk = true →
      fsStat fs (outputPathOf f) = none → e.markerWriteOk = true →
      e.startOk = true → e.canceledDuring = true →
      (processFile_v2 e fs f).1 = 3 ∧
      fsStat (processFile_v2 e fs f).2.1 (outputPathOf f) = none ∧
      fsStat (processFile_v2 e fs f).2.1 (incompleteMarkerOf f) = none ∧
      (processFile_v2 e fs f).2.2 =
        [FileAction.mkdirConverted, FileAction.statOutput, FileAction.writeMarker,
         FileAction.startProc, FileAction.registerProc, FileAction.killProc,
         FileAction.unregisterProc, FileAction.removeOutput, FileAction.removeMarker]) := by
  have hstat : ∀ (fs2 : FS) (f : VideoFile),
      fsStat (fsRemove (fsRemove fs2 (outputPathOf f)) (incompleteMarkerOf f))
          (outputPathOf f) = none ∧
      fsStat (fsRemove (fsRemove fs2 (outputPathOf f)) (incompleteMarkerOf f))
          (incompleteMarkerOf f) = none := by
    intro fs2 f
    constructor
    · rw [fsStat_fsRemove_of_ne _ _ _ (incompleteMarkerOf_ne_outputPathOf f f)]
      exact fsStat_fsRemove_self _ _
    · exact fsStat_fsRemove_self _ _
  constructor
  · intro e fs f hce hss hmk hout hmw hso hcd
    refine ⟨?_, ?_, ?_, ?_⟩ <;>
      simp [processFile_v1, hce, hss, hmk, hout, hmw, hso, hcd, hstat fs f,
        (hstat _ f).1, (hstat _ f).2]
  · intro e fs f hce hmk hout hmw hso hcd
    refine ⟨?_, ?_, ?_, ?_⟩ <;>
      simp [processFile_v2, hce, hmk, hout, hmw, hso, hcd,
        (hstat _ f).1, (hstat _ f).2]

/-- C3 witness: the variant-1 branch applied to a concrete canceled task
whose process exits within the grace period. -/
theorem c3_cancellation_teardown_witness :
    (processFile_v1 ⟨false, true, true, true, true, true, true, false, some 3⟩ []
        fileClipMOV).1 = 3 :=
  (c3_cancellation_teardown.1 ⟨false, true, true, true, true, true, true, false, some 3⟩
    [] fileClipMOV rfl rfl rfl (by decide) rfl rfl rfl).1

/-- C1 counterexample: in the sequential variant a zero exit status leads
straight to outcome 0 (Succeeded) with the marker removed — no integrity
check is performed: here the process exited zero without creating any
output, yet the task reports Succeeded (the trace shows no stat of the
output after the process stopped and no cleanup). -/
theorem c1_counterexample_v1_no_integrity_check :
    (processFile_v1 envV1ZeroExitNoOutput [] fileClipMOV).1 = 0 ∧
    fsStat (processFile_v1 envV1ZeroExitNoOutput [] fileClipMOV).2.1
      (outputPathOf fileClipMOV) = none ∧
    (processFile_v1 envV1ZeroExitNoOutput [] fileClipMOV).2.2 =
      [FileAction.statSource, FileAction.mkdirConverted, FileAction.statOutput,
       FileAction.writeMarker, FileAction.startProc, FileAction.registerProc,
       FileAction.unregisterProc, FileAction.removeMarker, FileAction.chtimes] := by
  decide

/-- C1 (amended): in the concurrent variant of `main.go`, a zero exit status
triggers the integrity check before Succeeded: when the output exists with
non-zero size the task reports 0 with the output kept and the marker removed
only after the check (the trace stats the output and only then removes the
marker); when the output is missing or empty the task removes both the
partial output and the marker and reports Failed (2).  The sequential
variant performs no such check (see the counterexample). -/
theorem c1_zero_exit_integrity_check :
    ∀ (e : EnvV2) (fs : FS) (f : VideoFile),
      e.canceledAtEntry = false → e.mkdirOk = true →
      fsStat fs (outputPathOf f) = none → e.markerWriteOk = true →
      e.startOk = true → e.canceledDuring = false → e.waitErr = false →
      (∀ n : Nat, e.ffmpegOut = some n → ¬ n = 0 →
        (processFile_v2 e fs f).1 = 0 ∧
        fsStat (processFile_v2 e fs f).2.1 (outputPathOf f) = some n ∧
        fsStat (processFile_v2 e fs f).2.1 (incompleteMarkerOf f) = none ∧
        (processFile_v2 e fs f).2.2 =
          [FileAction.mkdirConverted, FileAction.statOutput, FileAction.writeMarker,
           FileAction.startProc, FileAction.registerProc, FileAction.unregisterProc,
           FileAction.statOutput, FileAction.removeMarker]) ∧
      ((e.ffmpegOut = none ∨ e.ffmpegOut = some 0) →
        (processFile_v2 e fs f).1 = 2 ∧
        fsStat (processFile_v2 e fs f).2.1 (outputPathOf f) = none ∧
        fsStat (processFile_v2 e fs f).2.1 (incompleteMarkerOf f) = none) := by
  intro e fs f hce hmk hout hmw hso hcd hwe
  have hne := incompleteMarkerOf_ne_outputPathOf f f
  constructor
  · intro n hfo hn
    rw [processFile_v2_success e fs f n hce hmk hout hmw hso hcd hwe hfo hn]
    refine ⟨rfl, ?_, ?_, rfl⟩
    · rw [fsStat_fsRemove_of_ne _ _ _ hne, fsStat_fsWrite_self]
    · exact fsStat_fsRemove_self _ _
  · intro hfo
    rcases hfo with hfo | hfo
    · rw [processFile_v2_no_output e fs f hce hmk hout hmw hso hcd hwe hfo]
      refine ⟨rfl, ?_, ?_⟩
      · rw [fsStat_fsRemove_of_ne _ _ _ hne]
        exact fsStat_fsRemove_self _ _
      · exact fsStat_fsRemove_self _ _
    · rw [processFile_v2_empty_output e fs f hce hmk hout hmw hso hcd hwe hfo]
      refine ⟨rfl, ?_, ?_⟩
      · rw [fsStat_fsRemove_of_ne _ _ _ hne]
        exact fsStat_fsRemove_self _ _
      · exact fsStat_fsRemove_self _ _

/-- C1 witness: the amended statement applied to a concrete task whose
process exits zero leaving a 5-byte output. -/
theorem c1_zero_exit_integrity_check_witness :
    (processFile_v2 envRunOk [] fileClipMOV).1 = 0 :=
  ((c1_zero_exit_integrity_check envRunOk [] fileClipMOV rfl rfl (by decide) rfl rfl
      rfl rfl).1 5 rfl (by decide)).1

theorem processFile_v1_le3 (e : EnvV1) (fs : FS) (f : VideoFile) :
    (processFile_v1 e fs f).1 ≤ 3 := by
  unfold processFile_v1
  repeat' split
  all_goals try norm_num
  all_goals by_cases hs : (fsStat fs (outputPathOf f)).isSome = true
  all_goals try simp only [hs, if_true, if_false, Bool.false_eq_true]
  all_goals norm_num

theorem processFile_v2_le3 (e : EnvV2) (fs : FS) (f : VideoFile) :
    (processFile_v2 e fs f).1 ≤ 3 := by
  unfold processFile_v2
  repeat' split
  all_goals try norm_num
  all_goals by_cases hs : (fsStat fs (outputPathOf f)).isSome = true
  all_goals try simp only [hs, if_true, if_false, Bool.false_eq_true]
  all_goals try norm_num
  all_goals repeat' split
  all_goals norm_num

theorem sumCounts_bump (c : Counts) (r : Nat) (h : r ≤ 3) :
    sumCounts (bump c r) = sumCounts c + 1 := by
  rcases r with _ | _ | _ | _ | r <;> simp [bump, sumCounts] <;> omega

theorem processFiles_v2_aux_sum (total : Nat) (env : VideoFile → EnvV2) :
    ∀ (files : List VideoFile) (fs : FS) (c : Counts),
      sumCounts (processFiles_v2_aux total false env files fs c).1 =
        sumCounts c + files.length := by
  intro files
  induction files with
  | nil => intro fs c; simp [processFiles_v2_aux]
  | cons f rest ih =>
    intro fs c
    simp only [processFiles_v2_aux, if_neg (by simp : ¬ false = true), List.length_cons]
    rw [ih, sumCounts_bump _ _ (processFile_v2_le3 (env f) fs f)]
    omega

theorem processFiles_v1_aux_sum (total : Nat) (env : VideoFile → EnvV1) :
    ∀ (files : List VideoFile) (fs : FS) (c : Counts),
      sumCounts (processFiles_v1_aux total false env files fs c).1 =
        sumCounts c + files.length := by
  intro files
  induction files with
  | nil => intro fs c; simp [processFiles_v1_aux]
  | cons f rest ih =>
    intro fs c
    simp only [processFiles_v1_aux, if_neg (by simp : ¬ false = true), List.length_cons]
    rw [ih, sumCounts_bump _ _ (processFile_v1_le3 (env f) fs f)]
    omega

/-- C6 counterexample: in the concurrent variant, when the interrupt has
arrived before the loop starts, one enumerated file yields counters summing
to 2, not 1 — the `select`-scoped `break` first sets the canceled counter to
the remaining count and the spawned task then increments it again. -/
theorem c6_counterexample_canceled_double_count :
    (processFiles_v2 true (fun _ => envCanceledEntry) [fileClipMOV] []).1 =
      ⟨0, 0, 0, 2⟩ ∧
    sumCounts ⟨0, 0, 0, 2⟩ ≠ [fileClipMOV].length := by
  constructor
  · decide
  · decide

/-- C6 (amended): every per-file task returns exactly one of the four
result codes 0–3; in the sequential variant the four counters always sum to
the number of enumerated files (also under cancellation, where the loop
genuinely breaks), and in the concurrent variant they do so whenever no
cancellation occurs; under cancellation the concurrent loop can double-count
(see the counterexample). -/
theorem c6_outcome_counts :
    (∀ (e : EnvV1) (fs : FS) (f : VideoFile), (processFile_v1 e fs f).1 ≤ 3) ∧
    (∀ (e : EnvV2) (fs : FS) (f : VideoFile), (processFile_v2 e fs f).1 ≤ 3) ∧
    (∀ (env : VideoFile → EnvV2) (files : List VideoFile) (fs : FS),
      sumCounts (processFiles_v2 false env files fs).1 = files.length) ∧
    (∀ (canceled : Bool) (env : VideoFile → EnvV1) (files : List VideoFile) (fs : FS),
      sumCounts (processFiles_v1 canceled env files fs).1 = files.length) := by
  refine ⟨processFile_v1_le3, processFile_v2_le3, ?_, ?_⟩
  · intro env files fs
    rw [processFiles_v2, processFiles_v2_aux_sum]
    simp [sumCounts]
  · intro canceled env files fs
    cases canceled
    · rw [processFiles_v1, processFiles_v1_aux_sum]
      simp [sumCounts]
    · cases files with
      | nil => simp [processFiles_v1, processFiles_v1_aux, sumCounts]
      | cons f rest =>
        simp [processFiles_v1, processFiles_v1_aux, sumCounts]

theorem fsStat_fsRemove_some (fs : FS) (a p : Path) (n : Nat)
    (h : fsStat (fsRemove fs a) p = some n) : fsStat fs p = some n := by
  rw [fsStat_fsRemove] at h
  split at h
  · exact absurd h (by simp)
  · exact h

theorem incompleteSuffix_length : incompleteSuffix.length = 11 := by decide

theorem trim_marker_ne (p : Path) (h : goHasSuffix p incompleteSuffix = true) :
    goTrimSuffix p incompleteSuffix ≠ p := by
  have heq : incompleteSuffix = p.drop (p.length - incompleteSuffix.length) := by
    simpa [goHasSuffix] using h
  have hlen := congrArg List.length heq
  rw [List.length_drop, incompleteSuffix_length] at hlen
  have hL : 11 ≤ p.length := by omega
  intro heqq
  rw [goTrimSuffix, if_pos h] at heqq
  have hlen2 := congrArg List.length heqq
  rw [List.length_take, incompleteSuffix_length] at hlen2
  omega

theorem cleanupSweep_stat_some :
    ∀ (l : List Path) (fs : FS) (p : Path) (n : Nat),
      fsStat (cleanupSweep l fs) p = some n → fsStat fs p = some n := by
  intro l
  induction l with
  | nil => intro fs p n h; exact h
  | cons q rest ih =>
    intro fs p n h
    simp only [cleanupSweep] at h
    split at h
    · have h2 := fsStat_fsRemove_some _ _ _ _ (ih _ _ _ h)
      split at h2
      · exact fsStat_fsRemove_some _ _ _ _ h2
      · exact h2
    · exact ih _ _ _ h

theorem cleanupSweep_stat_none (l : List Path) (fs : FS) (p : Path)
    (h : fsStat fs p = none) : fsStat (cleanupSweep l fs) p = none := by
  cases h2 : fsStat (cleanupSweep l fs) p with
  | none => rfl
  | some n =>
    have h3 := cleanupSweep_stat_some l fs p n h2
    rw [h] at h3
    exact absurd h3 (by simp)

theorem cleanupSweep_marker_removed :
    ∀ (l : List Path) (fs : FS) (p : Path), p ∈ l →
      goHasSuffix p incompleteSuffix = true →
      fsStat (cleanupSweep l fs) p = none ∧
      fsStat (cleanupSweep l fs) (goTrimSuffix p incompleteSuffix) = none := by
  intro l
  induction l with
  | nil => intro fs p hp _; exact absurd hp (List.not_mem_nil p)
  | cons q rest ih =>
    intro fs p hp hm
    rcases List.mem_cons.mp hp with hpq | hpr
    · subst hpq
      simp only [cleanupSweep, hm, if_true]
      constructor
      · exact cleanupSweep_stat_none _ _ _ (fsStat_fsRemove_self _ _)
      · apply cleanupSweep_stat_none
        rw [fsStat_fsRemove_of_ne _ _ _ (Ne.symm (trim_marker_ne p hm))]
        split
        · exact fsStat_fsRemove_self _ _
        · next hv =>
          cases hfs : fsStat fs (goTrimSuffix p incompleteSuffix) with
          | none => rfl
          | some m => rw [hfs] at hv; simp at hv
    · simp only [cleanupSweep]
      split
      · exact ih _ _ hpr hm
      · exact ih _ _ hpr hm

theorem fsStat_isSome_mem (fs : FS) (p : Path) (h : (fsStat fs p).isSome = true) :
    p ∈ fs.map Prod.fst := by
  induction fs with
  | nil => simp [fsStat] at h
  | cons e rest ih =>
    obtain ⟨q, n⟩ := e
    by_cases hqp : q = p
    · simp [hqp]
    · simp only [fsStat, hqp, if_false] at h
      simp [List.mem_cons, ih h]

/-- C2 counterexample: no start-of-run sweep exists — with a leftover
marker and its stale partial output on disk, the run leaves the disk
untouched (the marker is still present afterwards) and the source file is
not reprocessed as new: its task sees the stale output, never starts the
transcoder, and reports Skipped. -/
theorem c2_counterexample_no_startup_sweep :
    processFiles_v2 false (fun _ => envRunOk) [fileClipRoot] fsLeftover =
      (⟨0, 1, 0, 0⟩, fsLeftover) ∧
    fsStat fsLeftover (incompleteMarkerOf fileClipRoot) = some 1 ∧
    FileAction.startProc ∉ (processFile_v2 envRunOk fsLeftover fileClipRoot).2.2 := by
  refine ⟨by decide, by decide, by decide⟩

/-- C2 (amended): removal of leftover markers together with their partial
outputs is performed only by `cleanupIncompleteFiles`, which the concurrent
variant runs during interrupt-triggered shutdown, not at the start of a run
(the sequential variant never calls it); the sweep adds nothing to the disk,
removes every marker file, and removes the partial output associated with
every marker present on disk. -/
theorem c2_crash_recovery_sweep :
    ∀ fs : FS,
      (∀ (p : Path) (n : Nat), fsStat (cleanupIncompleteFiles_v2 fs) p = some n →
        fsStat fs p = some n) ∧
      (∀ p : Path, goHasSuffix p incompleteSuffix = true →
        fsStat (cleanupIncompleteFiles_v2 fs) p = none) ∧
      (∀ p : Path, goHasSuffix p incompleteSuffix = true → (fsStat fs p).isSome = true →
        fsStat (cleanupIncompleteFiles_v2 fs) (goTrimSuffix p incompleteSuffix) = none) := by
  intro fs
  refine ⟨fun p n h => cleanupSweep_stat_some _ _ _ _ h, ?_, ?_⟩
  · intro p hm
    by_cases hp : (fsStat fs p).isSome = true
    · exact (cleanupSweep_marker_removed _ _ _ (fsStat_isSome_mem fs p hp) hm).1
    · apply cleanupSweep_stat_none
      cases hfs : fsStat fs p with
      | none => rfl
      | some m => rw [hfs] at hp; simp at hp
  · intro p hm hp
    exact (cleanupSweep_marker_removed _ _ _ (fsStat_isSome_mem fs p hp) hm).2

/-- C2 witness: the sweep applied to the crashed disk removes the leftover
marker and its partial output. -/
theorem c2_crash_recovery_sweep_witness :
    fsStat (cleanupIncompleteFiles_v2 fsLeftover) (incompleteMarkerOf fileClipRoot) = none ∧
    fsStat (cleanupIncompleteFiles_v2 fsLeftover)
      (goTrimSuffix (incompleteMarkerOf fileClipRoot) incompleteSuffix) = none :=
  ⟨(c2_crash_recovery_sweep fsLeftover).2.1 (incompleteMarkerOf fileClipRoot) (by decide),
   (c2_crash_recovery_sweep fsLeftover).2.2 (incompleteMarkerOf fileClipRoot) (by decide)
     (by decide)⟩

theorem processFile_v2_res01 (e : EnvV2) (fs : FS) (f : VideoFile)
    (h : (processFile_v2 e fs f).1 = 0 ∨ (processFile_v2 e fs f).1 = 1) :
    e.canceledAtEntry = false ∧ e.mkdirOk = true ∧
    ((processFile_v2 e fs f).2.1 = fs ∧ (fsStat fs (outputPathOf f)).isSome = true ∨
     ∃ n : Nat, e.ffmpegOut = some n ∧ ¬ n = 0 ∧
       (processFile_v2 e fs f).2.1 =
         fsRemove (fsWrite (fsWrite fs (incompleteMarkerOf f) 1) (outputPathOf f) n)
           (incompleteMarkerOf f)) := by
  cases hce : e.canceledAtEntry
  case true => simp [processFile_v2, hce] at h
  cases hmk : e.mkdirOk
  case false => simp [processFile_v2, hce, hmk] at h
  rcases hout : fsStat fs (outputPathOf f) with _ | m
  case some =>
    refine ⟨rfl, rfl, Or.inl ⟨?_, ?_⟩⟩
    · rw [processFile_v2_skip e fs f m hce hmk hout]
    · rfl
  cases hmw : e.markerWriteOk
  case false => simp [processFile_v2, hce, hmk, hout, hmw] at h
  cases hso : e.startOk
  case false => simp [processFile_v2, hce, hmk, hout, hmw, hso] at h
  cases hcd : e.canceledDuring
  case true => simp [processFile_v2, hce, hmk, hout, hmw, hso, hcd] at h
  cases hwe : e.waitErr
  case true =>
    cases hcx : e.ctxCanceledAtErr <;>
      simp [processFile_v2, hce, hmk, hout, hmw, hso, hcd, hwe, hcx] at h
  have hne := incompleteMarkerOf_ne_outputPathOf f f
  rcases hfo : e.ffmpegOut with _ | n
  case none =>
    rw [processFile_v2_no_output e fs f hce hmk hout hmw hso hcd hwe hfo] at h
    simp at h
  by_cases hn : n = 0
  · subst hn
    rw [processFile_v2_empty_output e fs f hce hmk hout hmw hso hcd hwe hfo] at h
    simp at h
  · exact ⟨rfl, rfl, Or.inr ⟨n, rfl, hn,
      by rw [processFile_v2_success e fs f n hce hmk hout hmw hso hcd hwe hfo hn]⟩⟩

theorem processFile_v2_res01_out (e : EnvV2) (fs : FS) (f : VideoFile)
    (h : (processFile_v2 e fs f).1 = 0 ∨ (processFile_v2 e fs f).1 = 1) :
    (fsStat (processFile_v2 e fs f).2.1 (outputPathOf f)).isSome = true := by
  obtain ⟨_, _, hcase⟩ := processFile_v2_res01 e fs f h
  rcases hcase with ⟨hfs, hout⟩ | ⟨n, _, _, hfs⟩
  · rw [hfs]; exact hout
  · rw [hfs, fsStat_fsRemove_of_ne _ _ _ (incompleteMarkerOf_ne_outputPathOf f f),
      fsStat_fsWrite_self]
    rfl

theorem processFile_v2_res01_pres (e : EnvV2) (fs : FS) (f : VideoFile) (q : Path)
    (h : (processFile_v2 e fs f).1 = 0 ∨ (processFile_v2 e fs f).1 = 1)
    (hq : incompleteMarkerOf f ≠ q)
    (hsome : (fsStat fs q).isSome = true) :
    (fsStat (processFile_v2 e fs f).2.1 q).isSome = true := by
  obtain ⟨_, _, hcase⟩ := processFile_v2_res01 e fs f h
  rcases hcase with ⟨hfs, _⟩ | ⟨n, _, _, hfs⟩
  · rw [hfs]; exact hsome
  · rw [hfs, fsStat_fsRemove_of_ne _ _ _ hq]
    by_cases hqo : outputPathOf f = q
    · rw [← hqo, fsStat_fsWrite_self]; rfl
    · rw [fsStat_fsWrite_of_ne _ _ _ _ hqo, fsStat_fsWrite_of_ne _ _ _ _ hq]
      exact hsome

theorem bump_error (c : Counts) (r : Nat) :
    (bump c r).error = if r = 2 then c.error + 1 else c.error := by
  rcases r with _ | _ | _ | _ | r <;> simp [bump]

theorem bump_canceled (c : Counts) (r : Nat) :
    (bump c r).canceled = if r = 3 then c.canceled + 1 else c.canceled := by
  rcases r with _ | _ | _ | _ | r <;> simp [bump]

theorem processFiles_v2_aux_mono (total : Nat) (env : VideoFile → EnvV2) :
    ∀ (files : List VideoFile) (fs : FS) (c : Counts),
      c.error ≤ (processFiles_v2_aux total false env files fs c).1.error ∧
      c.canceled ≤ (processFiles_v2_aux total false env files fs c).1.canceled := by
  intro files
  induction files with
  | nil => intro fs c; exact ⟨Nat.le_refl _, Nat.le_refl _⟩
  | cons g rest ih =>
    intro fs c
    simp only [processFiles_v2_aux, if_neg (by simp : ¬ false = true)]
    have hb := ih (processFile_v2 (env g) fs g).2.1 (bump c (processFile_v2 (env g) fs g).1)
    have he := bump_error c (processFile_v2 (env g) fs g).1
    have hc := bump_canceled c (processFile_v2 (env g) fs g).1
    constructor
    · refine Nat.le_trans ?_ hb.1
      rw [he]; split <;> omega
    · refine Nat.le_trans ?_ hb.2
      rw [hc]; split <;> omega

theorem processFiles_v2_aux_res01 (total : Nat) (env : VideoFile → EnvV2)
    (g : VideoFile) (rest : List VideoFile) (fs : FS) (c : Counts)
    (hE : (processFiles_v2_aux total false env (g :: rest) fs c).1.error = c.error)
    (hC : (processFiles_v2_aux total false env (g :: rest) fs c).1.canceled = c.canceled) :
    ((processFile_v2 (env g) fs g).1 = 0 ∨ (processFile_v2 (env g) fs g).1 = 1) ∧
    (processFiles_v2_aux total false env rest (processFile_v2 (env g) fs g).2.1
        (bump c (processFile_v2 (env g) fs g).1)).1.error =
      (bump c (processFile_v2 (env g) fs g).1).error ∧
    (processFiles_v2_aux total false env rest (processFile_v2 (env g) fs g).2.1
        (bump c (processFile_v2 (env g) fs g).1)).1.canceled =
      (bump c (processFile_v2 (env g) fs g).1).canceled := by
  simp only [processFiles_v2_aux, if_neg (by simp : ¬ false = true)] at hE hC
  have hmono := processFiles_v2_aux_mono total env rest
    (processFile_v2 (env g) fs g).2.1 (bump c (processFile_v2 (env g) fs g).1)
  have he := bump_error c (processFile_v2 (env g) fs g).1
  have hc := bump_canceled c (processFile_v2 (env g) fs g).1
  have hle := processFile_v2_le3 (env g) fs g
  have hr01 : (processFile_v2 (env g) fs g).1 = 0 ∨ (processFile_v2 (env g) fs g).1 = 1 := by
    rcases Nat.lt_or_ge (processFile_v2 (env g) fs g).1 2 with hlt | hge
    · omega
    · exfalso
      rcases Nat.eq_or_lt_of_le hge with h2 | h3

      · rw [if_pos h2.symm] at he
        omega
      · have h3' : (processFile_v2 (env g) fs g).1 = 3 := by omega
        rw [if_pos h3'] at hc
        omega
  have hne2 : ¬ (processFile_v2 (env g) fs g).1 = 2 := by omega
  have hne3 : ¬ (processFile_v2 (env g) fs g).1 = 3 := by omega
  rw [if_neg hne2] at he
  rw [if_neg hne3] at hc
  exact ⟨hr01, by omega, by omega⟩

theorem processFiles_v2_aux_pres (total : Nat) (env : VideoFile → EnvV2) :
    ∀ (files : List VideoFile) (fs : FS) (c : Counts) (q : Path),
      (processFiles_v2_aux total false env files fs c).1.error = c.error →
      (processFiles_v2_aux total false env files fs c).1.canceled = c.canceled →
      (∀ f ∈ files, incompleteMarkerOf f ≠ q) →
      (fsStat fs q).isSome = true →
      (fsStat (processFiles_v2_aux total false env files fs c).2 q).isSome = true := by
  intro files
  induction files with
  | nil => intro fs c q _ _ _ hsome; exact hsome
  | cons g rest ih =>
    intro fs c q hE hC hmark hsome
    obtain ⟨hr01, hE', hC'⟩ := processFiles_v2_aux_res01 total env g rest fs c hE hC
    simp only [processFiles_v2_aux, if_neg (by simp : ¬ false = true)]
    exact ih _ _ q hE' hC' (fun f hf => hmark f (List.mem_cons_of_mem g hf))
      (processFile_v2_res01_pres (env g) fs g q hr01
        (hmark g (List.mem_cons_self g rest)) hsome)

theorem processFiles_v2_aux_post (total : Nat) (env : VideoFile → EnvV2) :
    ∀ (files : List VideoFile) (fs : FS) (c : Counts),
      (processFiles_v2_aux total false env files fs c).1.error = c.error →
      (processFiles_v2_aux total false env files fs c).1.canceled = c.canceled →
      ∀ f ∈ files, (env f).canceledAtEntry = false ∧ (env f).mkdirOk = true ∧
        (fsStat (processFiles_v2_aux total false env files fs c).2
          (outputPathOf f)).isSome = true := by
  intro files
  induction files with
  | nil => intro fs c _ _ f hf; exact absurd hf (List.not_mem_nil f)
  | cons g rest ih =>
    intro fs c hE hC f hf
    obtain ⟨hr01, hE', hC'⟩ := processFiles_v2_aux_res01 total env g rest fs c hE hC
    rcases List.mem_cons.mp hf with hfg | hfr
    · subst hfg
      obtain ⟨hce, hmk, _⟩ := processFile_v2_res01 (env f) fs f hr01
      refine ⟨hce, hmk, ?_⟩
      simp only [processFiles_v2_aux, if_neg (by simp : ¬ false = true)]
      exact processFiles_v2_aux_pres total env rest _ _ _ hE' hC'
        (fun g' _ => incompleteMarkerOf_ne_outputPathOf g' f)
        (processFile_v2_res01_out (env f) fs f hr01)
    · have hres := ih _ _ hE' hC' f hfr
      refine ⟨hres.1, hres.2.1, ?_⟩
      simp only [processFiles_v2_aux, if_neg (by simp : ¬ false = true)]
      exact hres.2.2

theorem processFiles_v2_aux_all_skip (total : Nat) (env : VideoFile → EnvV2) :
    ∀ (files : List VideoFile) (fs : FS) (c : Counts),
      (∀ f ∈ files, (env f).canceledAtEntry = false ∧ (env f).mkdirOk = true ∧
        (fsStat fs (outputPathOf f)).isSome = true) →
      processFiles_v2_aux total false env files fs c =
        ({ c with skip := c.skip + files.length }, fs) := by
  intro files
  induction files with
  | nil => intro fs c _; simp [processFiles_v2_aux]
  | cons g rest ih =>
    intro fs c hall
    obtain ⟨hce, hmk, hsome⟩ := hall g (List.mem_cons_self g rest)
    rcases hm : fsStat fs (outputPathOf g) with _ | m
    · rw [hm] at hsome; simp at hsome
    simp only [processFiles_v2_aux, if_neg (by simp : ¬ false = true),
      processFile_v2_skip (env g) fs g m hce hmk hm]
    rw [ih fs (bump c 1) (fun f hf => hall f (List.mem_cons_of_mem g hf))]
    have : (bump c 1).skip + rest.length = c.skip + (g :: rest).length := by
      simp [bump]; omega
    simp [bump] at this ⊢
    omega

/-- C5 counterexample: with a file whose (deterministic) transcode fails,
the first run ends with one Failed outcome, and a second run over the same
unchanged tree again yields one Failed — not zero Succeeded and all
Skipped as claimed: the failed file is retried, not skipped. -/
theorem c5_counterexample_second_run_not_all_skipped :
    processFiles_v2 false (fun _ => envRunFail) [fileClipRoot] [] = (⟨0, 0, 1, 0⟩, []) ∧
    processFiles_v2 false (fun _ => envRunFail) [fileClipRoot]
        (processFiles_v2 false (fun _ => envRunFail) [fileClipRoot] []).2 =
      (⟨0, 0, 1, 0⟩, []) := by
  refine ⟨by decide, by decide⟩

/-- C5 (amended): a task whose computed output path already exists when it
starts (and whose context is live and directory creation succeeds) reports
Skipped without starting the transcoder and leaves the disk unchanged;
consequently, in the concurrent variant, when a run ends with no Failed and
no Canceled outcomes, rerunning the pipeline over the resulting tree with no
intervening changes yields zero Succeeded and all Skipped (a run with
failures retries the failed files instead, as the counterexample shows). -/
theorem c5_skip_idempotence :
    (∀ (e : EnvV2) (fs : FS) (f : VideoFile) (m : Nat),
      e.canceledAtEntry = false → e.mkdirOk = true →
      fsStat fs (outputPathOf f) = some m →
      processFile_v2 e fs f = (1, fs, [FileAction.mkdirConverted, FileAction.statOutput])) ∧
    (∀ (env : VideoFile → EnvV2) (files : List VideoFile) (fs : FS),
      (processFiles_v2 false env files fs).1.error = 0 →
      (processFiles_v2 false env files fs).1.canceled = 0 →
      processFiles_v2 false env files (processFiles_v2 false env files fs).2 =
        (⟨0, files.length, 0, 0⟩, (processFiles_v2 false env files fs).2)) := by
  constructor
  · exact processFile_v2_skip
  · intro env files fs hE hC
    have hpost := processFiles_v2_aux_post files.length env files fs ⟨0, 0, 0, 0⟩ hE hC
    have hskip := processFiles_v2_aux_all_skip files.length env files
      (processFiles_v2 false env files fs).2 ⟨0, 0, 0, 0⟩ hpost
    simpa [processFiles_v2] using hskip

/-- C5 witness: the skip rule applied to the concrete stale disk, and the
second run over the tree produced by a concrete successful first run. -/
theorem c5_skip_idempotence_witness :
    processFile_v2 envRunOk fsLeftover fileClipRoot =
      (1, fsLeftover, [FileAction.mkdirConverted, FileAction.statOutput]) ∧
    processFiles_v2 false (fun _ => envRunOk) [fileClipMOV]
        (processFiles_v2 false (fun _ => envRunOk) [fileClipMOV] []).2 =
      (⟨0, 1, 0, 0⟩, (processFiles_v2 false (fun _ => envRunOk) [fileClipMOV] []).2) :=
  ⟨c5_skip_idempotence.1 envRunOk fsLeftover fileClipRoot 7 rfl rfl (by decide),
   c5_skip_idempotence.2 (fun _ => envRunOk) [fileClipMOV] [] (by decide) (by decide)⟩

end VC
